import Mathlib

/-!
Shallow embedding of the availability/slot-scheduling engine of this
repository (`syncme/backend/calendar/scheduler.py` together with the data
model in `syncme/backend/shared/models.py`).

Modelling conventions:
* An instant is an integer number of minutes.  Calendar day `d` covers the
  half-open span `[d*1440, (d+1)*1440)`, and day `0` is a Monday, so the
  weekday of an instant `t` is `(t / 1440) % 7` with Monday = 0, matching
  Python's `date.weekday()` / `datetime.weekday()`.
* The time-of-day of an instant `t` is `t % 1440` (minutes after midnight);
  a `datetime.time` value such as `work_start_time` is its minute count.
* Confidence scores are rationals (`ℚ`); the Python floats appearing in the
  scorer (0.5, 0.2, 0.1, the 24h = 86400s decay) are the corresponding exact
  rationals.
* A single timezone is modelled (the user's): `pytz.localize` only attaches
  zone information and all comparisons in the scheduler are between instants
  of that zone, so localization is the identity here.
* Fallible Python code (pydantic validators raising `ValueError`, provider
  calls raising, `raise ValueError("Unsupported calendar provider: ...")`)
  is modelled with `Except`; a `try/except` block that swallows the error is
  modelled by matching on the `Except` value.
* Calendar collaborator calls (`google_calendar.*`, `outlook_calendar.*`)
  are inputs of type `Except Unit α`: `.ok` is a successful reply, `.error`
  a raised network/auth exception.
-/

/-- `EventStatus` from `shared/models.py`. -/
inductive EventStatus where
  | scheduled
  | cancelled
  | completed
  | rescheduled
deriving DecidableEq, Repr

/-- `Event` from `shared/models.py`, restricted to the fields the scheduler
reads (`start_time`, `end_time`, `status`); `title`, `location`, attendees
and provider metadata are never consulted by the scheduling logic. -/
structure Event where
  start_time : Int
  end_time : Int
  status : EventStatus
deriving DecidableEq, Repr

/-- `TimeSlot` from `shared/models.py`: a candidate interval with a
confidence score. -/
structure TimeSlot where
  start_time : Int
  end_time : Int
  confidence : ℚ
deriving DecidableEq, Repr

instance : Inhabited TimeSlot := ⟨⟨0, 1, 0⟩⟩

/-- Errors that can be raised inside the scheduler. -/
inductive SchedErr where
  /-- pydantic validator on `TimeSlot`: `end_time` must be after `start_time`. -/
  | invalidTimeSlot
  /-- `ValueError("Unsupported calendar provider: ...")`. -/
  | unsupportedProvider
  /-- an exception raised by a calendar provider call. -/
  | providerFailure
deriving DecidableEq, Repr

/-- `UserPreferences` from `shared/models.py`, restricted to the fields the
scheduler reads.  `work_start_time`/`work_end_time` are minutes after
midnight (Python `time` objects always lie within one day).  `buffer_time`
is in minutes; the data model specifies `buffer_minutes ≥ 0` (default 15),
so it is a `Nat` here. -/
structure UserPreferences where
  work_start_time : Int := 540
  work_end_time : Int := 1020
  buffer_time : Nat := 15
deriving DecidableEq, Repr

/-- `Scheduler.max_suggestions` (constructor of `Scheduler`). -/
def maxSuggestions : Nat := 10

/-- The `while current_time + slot_duration <= work_end` loop of
`Scheduler._generate_day_slots`: emit `[current, current+duration)` with
baseline confidence 0.8, then advance the cursor by `duration + buffer`.
The `TimeSlot(...)` constructor call goes through the pydantic validator
`end_after_start` of `shared/models.py`, which raises `ValueError` unless
`end_time > start_time`; that check is the inner `if` (its success, i.e.
`0 < duration`, is also what makes the loop terminate). -/
def generate_day_slots_loop (duration : Int) (buffer : Nat) (work_end : Int)
    (current : Int) : Except SchedErr (List TimeSlot) :=
  if h : current + duration ≤ work_end then
    if h2 : current < current + duration then
      match generate_day_slots_loop duration buffer work_end (current + duration + buffer) with
      | .error e => .error e
      | .ok rest => .ok (⟨current, current + duration, 4/5⟩ :: rest)
    else
      .error .invalidTimeSlot
  else
    .ok []
termination_by (work_end - current).toNat
decreasing_by omega

/-- `Scheduler._generate_day_slots`: work hours of `target_date` (a day
index; day 0 is a Monday) in the user's timezone, then the slot loop. -/
def generate_day_slots (target_date : Int) (duration : Int)
    (prefs : UserPreferences) : Except SchedErr (List TimeSlot) :=
  generate_day_slots_loop duration prefs.buffer_time
    (target_date * 1440 + prefs.work_end_time)
    (target_date * 1440 + prefs.work_start_time)

/-- `Scheduler._generate_potential_slots`: iterate the calendar dates from
`start_date` to `end_date` inclusive, skipping Saturdays/Sundays when
`exclude_weekends` is set, concatenating each retained day's slots. -/
def generate_potential_slots (start_date end_date : Int) (duration : Int)
    (prefs : UserPreferences) (exclude_weekends : Bool) :
    Except SchedErr (List TimeSlot) :=
  if h : start_date ≤ end_date then
    if exclude_weekends ∧ 5 ≤ start_date.emod 7 then
      generate_potential_slots (start_date + 1) end_date duration prefs exclude_weekends
    else
      match generate_day_slots start_date duration prefs with
      | .error e => .error e
      | .ok day_slots =>
        match generate_potential_slots (start_date + 1) end_date duration prefs exclude_weekends with
        | .error e => .error e
        | .ok rest => .ok (day_slots ++ rest)
  else
    .ok []
termination_by (end_date + 1 - start_date).toNat
decreasing_by
  all_goals omega

/-- `Scheduler._slots_overlap`. -/
def slots_overlap (slot : TimeSlot) (event : Event) : Bool :=
  slot.start_time < event.end_time ∧ slot.end_time > event.start_time

/-- The per-event conflict test inside the inner loop of
`Scheduler._filter_conflicting_slots`, in the code's order: skip cancelled
events, then overlap, then the two buffer checks. -/
def slot_conflicts (prefs : UserPreferences) (slot : TimeSlot) (event : Event) : Bool :=
  if event.status = EventStatus.cancelled then
    false
  else if slots_overlap slot event then
    true
  else if slot.start_time - event.end_time < (prefs.buffer_time : Int) ∧
      slot.start_time > event.end_time then
    true
  else if event.start_time - slot.end_time < (prefs.buffer_time : Int) ∧
      event.start_time > slot.end_time then
    true
  else
    false

/-- `Scheduler._filter_conflicting_slots`: keep exactly the slots that
conflict with no existing event (the Python `break` on the first conflict is
observationally `List.any`). -/
def filter_conflicting_slots (potential_slots : List TimeSlot)
    (existing_events : List Event) (prefs : UserPreferences) : List TimeSlot :=
  potential_slots.filter (fun slot => !(existing_events.any (slot_conflicts prefs slot)))

/-- `Scheduler._calculate_slot_score`, term by term in the code's order.
`preferred_time` is an optional instant; `time_diff` is in seconds
(`total_seconds()` of a minute difference is `60 * |Δ|`). -/
def calculate_slot_score (slot : TimeSlot) (preferred_time : Option Int)
    (prefs : UserPreferences) : ℚ :=
  let score : ℚ := 1/2
  let score :=
    match preferred_time with
    | some p =>
      let time_diff : ℚ := |((slot.start_time - p : Int) : ℚ)| * 60
      score + max 0 (1/2 - time_diff / (24 * 3600))
    | none => score
  let slot_time := slot.start_time.emod 1440
  let score :=
    if prefs.work_start_time ≤ slot_time ∧ slot_time ≤ prefs.work_end_time then
      score + 2/10 else score
  let hour := slot_time / 60
  let score := if hour < 12 then score + 1/10 else score
  let score := if hour < 8 ∨ hour > 17 then score - 2/10 else score
  let score := if 11 ≤ hour ∧ hour ≤ 13 then score - 1/10 else score
  let weekday := (slot.start_time.ediv 1440).emod 7
  let score := if weekday < 5 then score + 1/10 else score
  max 0 (min 1 score)

/-- Stable insertion step modelling Python's stable `list.sort(key=confidence,
reverse=True)`: a later element `x` is placed after every already-placed
element of confidence `≥ x.confidence` and before the first of strictly
smaller confidence. -/
def insertSlot (x : TimeSlot) : List TimeSlot → List TimeSlot
  | [] => [x]
  | y :: ys => if y.confidence ≤ x.confidence then x :: y :: ys else y :: insertSlot x ys

/-- Stable sort by confidence, highest first (the observable behaviour of
`scored_slots.sort(key=lambda x: x.confidence, reverse=True)`: Python's sort
is stable and `reverse=True` keeps equal keys in original order). -/
def sortConfDesc : List TimeSlot → List TimeSlot
  | [] => []
  | x :: xs => insertSlot x (sortConfDesc xs)

/-- `Scheduler._score_time_slots`: rewrite each slot's confidence to
`min(score, 1.0)`, then sort by confidence, highest first. -/
def score_time_slots (slots : List TimeSlot) (preferred_time : Option Int)
    (prefs : UserPreferences) : List TimeSlot :=
  sortConfDesc (slots.map (fun slot =>
    { slot with confidence := min (calculate_slot_score slot preferred_time prefs) 1 }))

/-- `Scheduler._get_existing_events`: one `try` block fetches Google events,
then Outlook events, then converts the user-context events; an exception
anywhere is caught and whatever was collected so far is returned.
`context_events` are the (already converted) `user_context.existing_events`,
`[]` when absent. -/
def get_existing_events (google : Except Unit (List Event))
    (outlook : Except Unit (List Event)) (context_events : List Event) :
    List Event :=
  match google with
  | .error _ => []
  | .ok g =>
    match outlook with
    | .error _ => g
    | .ok o => g ++ o ++ context_events

/-- `Scheduler.find_available_slots`: aggregate events, generate candidate
slots, filter conflicts, score and rank, truncate to `max_suggestions`.
The surrounding `try/except` returns `[]` on any exception escaping the
pipeline (the aggregator itself never raises). -/
def find_available_slots (duration : Int) (preferred_time : Option Int)
    (prefs : UserPreferences) (google : Except Unit (List Event))
    (outlook : Except Unit (List Event)) (context_events : List Event)
    (start_date end_date : Int) (exclude_weekends : Bool) : List TimeSlot :=
  let existing_events := get_existing_events google outlook context_events
  match generate_potential_slots start_date end_date duration prefs exclude_weekends with
  | .error _ => []
  | .ok potential_slots =>
    let available_slots := filter_conflicting_slots potential_slots existing_events prefs
    let scored_slots := score_time_slots available_slots preferred_time prefs
    scored_slots.take maxSuggestions

/-- `Scheduler.check_availability`: false iff some non-cancelled fetched
event strictly overlaps `[start_time, end_time)`. -/
def check_availability (start_time end_time : Int) (existing_events : List Event) : Bool :=
  existing_events.all (fun event =>
    if event.status = EventStatus.cancelled then true
    else !(start_time < event.end_time ∧ end_time > event.start_time))

/-- `Scheduler.create_event`: dispatch on the provider string; unknown names
raise `ValueError`, and the `except` clause re-raises every error, so all
errors reach the caller. -/
def create_event (provider : String) (google_create outlook_create : Except Unit Event) :
    Except SchedErr Event :=
  if provider = "google" then google_create.mapError fun _ => SchedErr.providerFailure
  else if provider = "outlook" then outlook_create.mapError fun _ => SchedErr.providerFailure
  else .error .unsupportedProvider

/-- `Scheduler.update_event`: same dispatch and re-raise as `create_event`. -/
def update_event (provider : String) (google_update outlook_update : Except Unit Event) :
    Except SchedErr Event :=
  if provider = "google" then google_update.mapError fun _ => SchedErr.providerFailure
  else if provider = "outlook" then outlook_update.mapError fun _ => SchedErr.providerFailure
  else .error .unsupportedProvider

/-- The `try` body of `Scheduler.cancel_event` (provider dispatch). -/
def cancel_event_attempt (provider : String) (google_cancel outlook_cancel : Except Unit Bool) :
    Except SchedErr Bool :=
  if provider = "google" then google_cancel.mapError fun _ => SchedErr.providerFailure
  else if provider = "outlook" then outlook_cancel.mapError fun _ => SchedErr.providerFailure
  else .error .unsupportedProvider

/-- `Scheduler.cancel_event`: the `except` clause catches every error and
returns `False` instead of re-raising. -/
def cancel_event (provider : String) (google_cancel outlook_cancel : Except Unit Bool) : Bool :=
  match cancel_event_attempt provider google_cancel outlook_cancel with
  | .ok success => success
  | .error _ => false

/-- The `try` body of `Scheduler.suggest_reschedule_options`: fetch the
original event via the dispatched provider, then find new slots.
`find_slots` abstracts the internal `find_available_slots` call (duration
derivation, 30-day window anchored on the original start). -/
def suggest_reschedule_attempt (provider : String)
    (google_get outlook_get : Except Unit Event)
    (find_slots : Event → List TimeSlot) : Except SchedErr (List TimeSlot) :=
  match
    (if provider = "google" then google_get.mapError fun _ => SchedErr.providerFailure
     else if provider = "outlook" then outlook_get.mapError fun _ => SchedErr.providerFailure
     else .error .unsupportedProvider) with
  | .error e => .error e
  | .ok original_event => .ok (find_slots original_event)

/-- `Scheduler.suggest_reschedule_options`: the `except` clause catches every
error and returns `[]` instead of re-raising. -/
def suggest_reschedule_options (provider : String)
    (google_get outlook_get : Except Unit Event)
    (find_slots : Event → List TimeSlot) : List TimeSlot :=
  match suggest_reschedule_attempt provider google_get outlook_get find_slots with
  | .ok slots => slots
  | .error _ => []

/-- Conflict predicate as the specification words it (§4.3 of the spec /
claim C1): a non-cancelled interval that overlaps the slot, or sits closer
than the buffer on either side. -/
def conflictSpec (buffer : Int) (slot : TimeSlot) (E : Event) : Prop :=
  E.status ≠ EventStatus.cancelled ∧
    ((slot.start_time < E.end_time ∧ slot.end_time > E.start_time) ∨
     (slot.start_time > E.end_time ∧ slot.start_time - E.end_time < buffer) ∨
     (E.start_time > slot.end_time ∧ E.start_time - slot.end_time < buffer))

instance (buffer : Int) (slot : TimeSlot) (E : Event) :
    Decidable (conflictSpec buffer slot E) := by
  unfold conflictSpec; infer_instance

/-- Scoring formula as the specification words it (§4.4 of the spec / claim
C3): one clamped sum of conditional terms over the slot's start instant. -/
def scoreSpec (t : Int) (preferred_time : Option Int) (prefs : UserPreferences) : ℚ :=
  let pref_term : ℚ :=
    match preferred_time with
    | some p => max 0 (1/2 - (|((t - p : Int) : ℚ)| * 60) / 86400)
    | none => 0
  let tod := t.emod 1440
  let hour := tod / 60
  let weekday := (t.ediv 1440).emod 7
  let sum : ℚ := 1/2 + pref_term
    + (if prefs.work_start_time ≤ tod ∧ tod ≤ prefs.work_end_time then 2/10 else 0)
    + (if hour < 12 then 1/10 else 0)
    - (if hour < 8 ∨ hour > 17 then 2/10 else 0)
    - (if 11 ≤ hour ∧ hour ≤ 13 then 1/10 else 0)
    + (if weekday < 5 then 1/10 else 0)
  max 0 (min 1 sum)

theorem mem_insertSlot {z x : TimeSlot} {l : List TimeSlot} :
    z ∈ insertSlot x l ↔ z = x ∨ z ∈ l := by
  induction l with
  | nil => simp [insertSlot]
  | cons y ys ih =>
    by_cases h : y.confidence ≤ x.confidence
    · simp [insertSlot, h]
    · simp [insertSlot, h, ih]
      tauto

theorem mem_sortConfDesc {z : TimeSlot} {l : List TimeSlot} :
    z ∈ sortConfDesc l ↔ z ∈ l := by
  induction l with
  | nil => simp [sortConfDesc]
  | cons x xs ih => simp [sortConfDesc, mem_insertSlot, ih]

theorem pairwise_insertSlot {x : TimeSlot} {l : List TimeSlot}
    (h : List.Pairwise (fun a b => b.confidence ≤ a.confidence) l) :
    List.Pairwise (fun a b => b.confidence ≤ a.confidence) (insertSlot x l) := by
  induction l with
  | nil => simp [insertSlot]
  | cons y ys ih =>
    rcases List.pairwise_cons.mp h with ⟨hy, hys⟩
    by_cases hc : y.confidence ≤ x.confidence
    · rw [insertSlot, if_pos hc]
      refine List.pairwise_cons.mpr ⟨?_, h⟩
      intro z hz
      rcases List.mem_cons.mp hz with rfl | hz
      · exact hc
      · exact le_trans (hy z hz) hc
    · rw [insertSlot, if_neg hc]
      refine List.pairwise_cons.mpr ⟨?_, ih hys⟩
      intro z hz
      rcases mem_insertSlot.mp hz with rfl | hz
      · exact le_of_lt (lt_of_not_le hc)
      · exact hy z hz

theorem pairwise_sortConfDesc (l : List TimeSlot) :
    List.Pairwise (fun a b => b.confidence ≤ a.confidence) (sortConfDesc l) := by
  induction l with
  | nil => simp [sortConfDesc]
  | cons x xs ih => exact pairwise_insertSlot ih

theorem filter_insertSlot (q : ℚ) (x : TimeSlot) (l : List TimeSlot) :
    (insertSlot x l).filter (fun s => s.confidence == q)
      = if x.confidence = q then x :: l.filter (fun s => s.confidence == q)
        else l.filter (fun s => s.confidence == q) := by
  induction l with
  | nil => by_cases hx : x.confidence = q <;> simp [insertSlot, List.filter_cons, hx]
  | cons y ys ih =>
    by_cases hc : y.confidence ≤ x.confidence
    · rw [insertSlot, if_pos hc]
      by_cases hx : x.confidence = q <;> simp [List.filter_cons, hx]
    · rw [insertSlot, if_neg hc]
      by_cases hx : x.confidence = q
      · have hy : ¬ (y.confidence = q) := by
          intro hy; exact hc (le_of_eq (hy.trans hx.symm))
        simp [List.filter_cons, hy, ih, hx]
      · by_cases hy : y.confidence = q <;> simp [List.filter_cons, hy, ih, hx]

theorem filter_sortConfDesc (q : ℚ) (l : List TimeSlot) :
    (sortConfDesc l).filter (fun s => s.confidence == q)
      = l.filter (fun s => s.confidence == q) := by
  induction l with
  | nil => simp [sortConfDesc]
  | cons x xs ih =>
    rw [sortConfDesc, filter_insertSlot]
    by_cases hx : x.confidence = q <;> simp [List.filter_cons, hx, ih]

theorem slot_conflicts_iff (prefs : UserPreferences) (slot : TimeSlot) (E : Event) :
    slot_conflicts prefs slot E = true ↔ conflictSpec (prefs.buffer_time : Int) slot E := by
  unfold slot_conflicts conflictSpec slots_overlap
  by_cases hc : E.status = EventStatus.cancelled
  · simp [hc]
  · simp only [hc, if_false, ne_eq, not_false_iff, true_and]
    split_ifs with h1 h2 h3 <;> simp_all <;> omega

theorem clampQ (x : ℚ) : min (max 0 (min 1 x)) 1 = max 0 (min 1 x) := by
  apply min_eq_left
  exact max_le (by norm_num) (le_trans (min_le_left _ _) (by norm_num))

theorem score_eq_spec (slot : TimeSlot) (pref : Option Int) (prefs : UserPreferences) :
    min (calculate_slot_score slot pref prefs) 1 = scoreSpec slot.start_time pref prefs := by
  unfold calculate_slot_score scoreSpec
  cases pref with
  | none =>
    simp only []
    rw [clampQ]
    congr 1
    apply congrArg
    split_ifs <;> ring
  | some p =>
    simp only []
    rw [clampQ]
    congr 1
    apply congrArg
    have h86 : (24 * 3600 : ℚ) = 86400 := by norm_num
    rw [h86]
    split_ifs <;> ring

theorem generate_day_slots_loop_mem (duration : Int) (buffer : Nat) (work_end : Int)
    (current : Int) :
    ∀ L, generate_day_slots_loop duration buffer work_end current = .ok L →
      ∀ s ∈ L, s.end_time = s.start_time + duration ∧ current ≤ s.start_time ∧
        s.end_time ≤ work_end := by
  induction current using generate_day_slots_loop.induct duration buffer work_end with
  | case1 x hle h2 e heq =>
    intro L hok
    unfold generate_day_slots_loop at hok
    rw [dif_pos hle, dif_pos h2, heq] at hok
    exact absurd hok (by simp)
  | case2 x hle h2 rest heq ih =>
    intro L hok
    unfold generate_day_slots_loop at hok
    rw [dif_pos hle, dif_pos h2, heq] at hok
    cases hok
    intro s hs
    rcases List.mem_cons.mp hs with rfl | hs
    · exact ⟨rfl, le_refl _, hle⟩
    · rcases ih rest heq s hs with ⟨e1, e2, e3⟩
      refine ⟨e1, ?_, e3⟩
      omega
  | case3 x hle h2 =>
    intro L hok
    unfold generate_day_slots_loop at hok
    rw [dif_pos hle, dif_neg h2] at hok
    exact absurd hok (by simp)
  | case4 x hle =>
    intro L hok
    unfold generate_day_slots_loop at hok
    rw [dif_neg hle] at hok
    have hL : L = [] := by
      cases hok
      rfl
    subst hL
    intro s hs
    exact absurd hs (by simp)

theorem generate_potential_slots_mem :
    ∀ (sd ed duration : Int) (prefs : UserPreferences) (ex : Bool) (L : List TimeSlot),
      generate_potential_slots sd ed duration prefs ex = .ok L →
      ∀ s ∈ L, ∃ d : Int, sd ≤ d ∧ d ≤ ed ∧ (ex = true → d.emod 7 < 5) ∧
        ∃ ds, generate_day_slots d duration prefs = .ok ds ∧ s ∈ ds := by
  intro sd ed duration prefs ex
  induction sd, ed, duration, prefs, ex using generate_potential_slots.induct with
  | case1 sd ed dur prefs ex hle hwk ih =>
    intro L hok s hs
    unfold generate_potential_slots at hok
    rw [dif_pos hle, if_pos hwk] at hok
    rcases ih L hok s hs with ⟨d, hd1, hd2, hd3, hrest⟩
    exact ⟨d, by omega, hd2, hd3, hrest⟩
  | case2 sd ed dur prefs ex hle hwk e heq =>
    intro L hok
    unfold generate_potential_slots at hok
    rw [dif_pos hle, if_neg hwk, heq] at hok
    exact absurd hok (by simp)
  | case3 sd ed dur prefs ex hle hwk ds heq e2 heq2 ih =>
    intro L hok
    unfold generate_potential_slots at hok
    rw [dif_pos hle, if_neg hwk, heq, heq2] at hok
    exact absurd hok (by simp)
  | case4 sd ed dur prefs ex hle hwk ds heq rest heq2 ih =>
    intro L hok
    unfold generate_potential_slots at hok
    rw [dif_pos hle, if_neg hwk, heq, heq2] at hok
    cases hok
    intro s hs
    rcases List.mem_append.mp hs with hs | hs
    · refine ⟨sd, le_refl _, hle, ?_, ds, heq, hs⟩
      intro hex
      by_contra h5
      exact hwk ⟨hex, by omega⟩
    · rcases ih rest heq2 s hs with ⟨d, hd1, hd2, hd3, hrest⟩
      exact ⟨d, by omega, hd2, hd3, hrest⟩
  | case5 sd ed dur prefs ex hle =>
    intro L hok
    unfold generate_potential_slots at hok
    rw [dif_neg hle] at hok
    cases hok
    intro s hs
    exact absurd hs (by simp)

theorem generate_day_slots_loop_nonpos (duration : Int) (buffer : Nat) (work_end current : Int)
    (hd : duration ≤ 0) :
    generate_day_slots_loop duration buffer work_end current = .error .invalidTimeSlot ∨
      generate_day_slots_loop duration buffer work_end current = .ok [] := by
  unfold generate_day_slots_loop
  by_cases h : current + duration ≤ work_end
  · rw [dif_pos h, dif_neg (by omega)]
    exact Or.inl rfl
  · rw [dif_neg h]
    exact Or.inr rfl

theorem generate_potential_slots_nonpos :
    ∀ (sd ed duration : Int) (prefs : UserPreferences) (ex : Bool), duration ≤ 0 →
      generate_potential_slots sd ed duration prefs ex = .error .invalidTimeSlot ∨
        generate_potential_slots sd ed duration prefs ex = .ok [] := by
  intro sd ed duration prefs ex
  induction sd, ed, duration, prefs, ex using generate_potential_slots.induct with
  | case1 sd ed dur prefs ex hle hwk ih =>
    intro hd
    unfold generate_potential_slots
    rw [dif_pos hle, if_pos hwk]
    exact ih hd
  | case2 sd ed dur prefs ex hle hwk e heq =>
    intro hd
    unfold generate_potential_slots
    rw [dif_pos hle, if_neg hwk, heq]
    have he : e = SchedErr.invalidTimeSlot := by
      rcases generate_day_slots_loop_nonpos dur prefs.buffer_time
          (sd * 1440 + prefs.work_end_time) (sd * 1440 + prefs.work_start_time) hd with h1 | h1 <;>
        · unfold generate_day_slots at heq
          rw [heq] at h1
          first
          | (cases h1; rfl)
          | exact absurd h1 (by simp)
    rw [he]
    exact Or.inl rfl
  | case3 sd ed dur prefs ex hle hwk ds heq e2 heq2 ih =>
    intro hd
    unfold generate_potential_slots
    rw [dif_pos hle, if_neg hwk, heq, heq2]
    rcases ih hd with h1 | h1 <;> rw [heq2] at h1
    · cases h1
      exact Or.inl rfl
    · exact absurd h1 (by simp)
  | case4 sd ed dur prefs ex hle hwk ds heq rest heq2 ih =>
    intro hd
    unfold generate_potential_slots
    rw [dif_pos hle, if_neg hwk, heq, heq2]
    have hds : ds = [] := by
      rcases generate_day_slots_loop_nonpos dur prefs.buffer_time
          (sd * 1440 + prefs.work_end_time) (sd * 1440 + prefs.work_start_time) hd with h1 | h1 <;>
        (unfold generate_day_slots at heq; rw [heq] at h1)
      · exact absurd h1 (by simp)
      · cases h1; rfl
    have hrest : rest = [] := by
      rcases ih hd with h1 | h1 <;> rw [heq2] at h1
      · exact absurd h1 (by simp)
      · cases h1; rfl
    subst hds; subst hrest
    exact Or.inr rfl
  | case5 sd ed dur prefs ex hle =>
    unfold generate_potential_slots
    rw [dif_neg hle]
    intro hd
    exact Or.inr rfl

theorem mem_score_time_slots {slots : List TimeSlot} {pref : Option Int}
    {prefs : UserPreferences} {s : TimeSlot}
    (hs : s ∈ score_time_slots slots pref prefs) :
    ∃ t ∈ slots, s = { t with confidence := min (calculate_slot_score t pref prefs) 1 } := by
  unfold score_time_slots at hs
  rcases List.mem_map.mp (mem_sortConfDesc.mp hs) with ⟨t, ht, rfl⟩
  exact ⟨t, ht, rfl⟩

/-- Claim C1 (confirmed): the conflict filter removes a candidate slot if and
only if some busy interval `E` with status other than cancelled overlaps it
(`slot.start < E.end ∧ slot.end > E.start`) or violates the buffer on either
side (`slot.start > E.end ∧ slot.start - E.end < buffer`, or
`E.start > slot.end ∧ E.start - slot.end < buffer`).  A gap exactly equal to
the buffer is kept (the comparisons are strict), a cancelled interval never
causes rejection, and the result is a pure filter of the input, so surviving
slots keep their original order. -/
theorem C1_conflict_filter (potential : List TimeSlot) (events : List Event)
    (prefs : UserPreferences) :
    filter_conflicting_slots potential events prefs
      = potential.filter (fun slot =>
          decide (∀ E ∈ events, ¬ conflictSpec (prefs.buffer_time : Int) slot E)) ∧
    (filter_conflicting_slots potential events prefs).Sublist potential := by
  constructor
  · unfold filter_conflicting_slots
    apply List.filter_congr
    intro slot _
    rw [Bool.eq_iff_iff]
    simp [List.any_eq_true, slot_conflicts_iff, not_exists]
  · exact List.filter_sublist _

/-- Claim C3 (confirmed): every slot produced by the scorer carries exactly
the confidence `clamp(S, 0, 1)` where `S` is the additive formula of the
claim (base 0.5, preferred-instant proximity term decaying over 86400
seconds, working-hours +0.2, morning +0.1, extreme-hour −0.2, lunch-hour
−0.1, weekday +0.1); `scoreSpec` is that formula written from the claim's
words. -/
theorem C3_score_formula (slots : List TimeSlot) (preferred_time : Option Int)
    (prefs : UserPreferences) :
    ∀ s ∈ score_time_slots slots preferred_time prefs,
      s.confidence = scoreSpec s.start_time preferred_time prefs := by
  intro s hs
  rcases mem_score_time_slots hs with ⟨t, ht, rfl⟩
  exact score_eq_spec t preferred_time prefs

/-- Witness for C3 at a concrete scored list. -/
theorem C3_witness :
    (⟨0, 60, 7/10⟩ : TimeSlot) ∈ score_time_slots [⟨0, 60, 4/5⟩] none ⟨0, 60, 15⟩ ∧
    (⟨0, 60, 7/10⟩ : TimeSlot).confidence = scoreSpec 0 none ⟨0, 60, 15⟩ := by
  have hm : (⟨0, 60, 7/10⟩ : TimeSlot) ∈ score_time_slots [⟨0, 60, 4/5⟩] none ⟨0, 60, 15⟩ := by
    norm_num [score_time_slots, sortConfDesc, insertSlot, calculate_slot_score]
  exact ⟨hm, C3_score_formula _ _ _ _ hm⟩

/-- Claim C4 (confirmed): the scorer's output is sorted by confidence in
descending order (pairwise, hence for every adjacent pair), slots of equal
confidence appear in the order of the scored input list — i.e. the original
chronological order, since rescoring is an order-preserving map — and
running the pipeline twice on identical inputs yields identical output (the
embedding of the pipeline, like Python's stable `sort`, is a pure
deterministic function). -/
theorem C4_ranking (slots : List TimeSlot) (preferred_time : Option Int)
    (prefs : UserPreferences) (duration : Int) (google outlook : Except Unit (List Event))
    (ctx : List Event) (sd ed : Int) (ex : Bool) :
    List.Pairwise (fun a b => b.confidence ≤ a.confidence)
        (score_time_slots slots preferred_time prefs) ∧
    (∀ q : ℚ, (score_time_slots slots preferred_time prefs).filter
          (fun s => s.confidence == q)
        = (slots.map (fun slot =>
            { slot with confidence := min (calculate_slot_score slot preferred_time prefs) 1 })).filter
            (fun s => s.confidence == q)) ∧
    find_available_slots duration preferred_time prefs google outlook ctx sd ed ex
      = find_available_slots duration preferred_time prefs google outlook ctx sd ed ex := by
  unfold score_time_slots
  exact ⟨pairwise_sortConfDesc _, fun q => filter_sortConfDesc q _, rfl⟩

/-- Counterexample to claim C2: when the Google fetch fails, the aggregation
returns `[]`, omitting the Outlook interval `⟨120,180⟩` and the user-context
interval `⟨300,360⟩` as well — not only the failing collaborator's
intervals. -/
theorem C2_counterexample :
    get_existing_events (.error ()) (.ok [⟨120, 180, .scheduled⟩]) [⟨300, 360, .scheduled⟩] = [] ∧
    (⟨120, 180, EventStatus.scheduled⟩ : Event) ∉
      get_existing_events (.error ()) (.ok [⟨120, 180, .scheduled⟩]) [⟨300, 360, .scheduled⟩] := by
  exact ⟨rfl, by simp [get_existing_events]⟩

/-- Claim C2 as amended: the single `try` block of `_get_existing_events`
fetches Google, then Outlook, then the user-context events; a failure omits
the failing source's intervals *and those of every source fetched after it*,
while intervals gathered before the failure are still returned, and the
aggregation itself never raises (so a provider outage still never aborts the
availability computation). -/
theorem C2_amended (outlook : Except Unit (List Event)) (g o ctx : List Event) :
    get_existing_events (.error ()) outlook ctx = [] ∧
    get_existing_events (.ok g) (.error ()) ctx = g ∧
    get_existing_events (.ok g) (.ok o) ctx = g ++ o ++ ctx :=
  ⟨rfl, rfl, rfl⟩

/-- Counterexample to claim C5: with `duration = 0` the caller of
`find_available_slots` receives the plain empty list — the representation of
"no slots", not a surfaced error — while the error that does occur is the
`TimeSlot` validator failing *during* generation (not an `InvalidDuration`
rejection before it), and it is swallowed by the surrounding `except`. -/
theorem C5_counterexample :
    find_available_slots 0 none ⟨0, 60, 15⟩ (.ok []) (.ok []) [] 0 0 true = [] ∧
    generate_potential_slots 0 0 0 ⟨0, 60, 15⟩ true = .error .invalidTimeSlot := by
  constructor
  · simp +decide [find_available_slots, generate_potential_slots, generate_day_slots,
      generate_day_slots_loop, get_existing_events]
  · simp +decide [generate_potential_slots, generate_day_slots, generate_day_slots_loop]

/-- Claim C5 as amended: `find_available_slots` performs no duration
validation; for every non-positive duration the slot constructor's validator
fails inside generation (or no slot fits at all) and the caller receives an
empty list, never a raised error. -/
theorem C5_amended (duration : Int) (hd : duration ≤ 0) (preferred_time : Option Int)
    (prefs : UserPreferences) (google outlook : Except Unit (List Event)) (ctx : List Event)
    (sd ed : Int) (ex : Bool) :
    find_available_slots duration preferred_time prefs google outlook ctx sd ed ex = [] := by
  unfold find_available_slots
  rcases generate_potential_slots_nonpos sd ed duration prefs ex hd with h | h <;> rw [h] <;> rfl

/-- Witness for the amended C5 at `duration = -5`. -/
theorem C5_witness :
    (-5 : Int) ≤ 0 ∧
    find_available_slots (-5) none ⟨0, 60, 15⟩ (.ok []) (.ok []) [] 0 0 true = [] :=
  ⟨by norm_num, C5_amended (-5) (by norm_num) none ⟨0, 60, 15⟩ (.ok []) (.ok []) [] 0 0 true⟩

/-- Claim C6 (confirmed): every `TimeSlot` returned by
`find_available_slots` satisfies `end_time - start_time = duration`,
exactly. -/
theorem C6_duration_invariant (duration : Int) (preferred_time : Option Int)
    (prefs : UserPreferences) (google outlook : Except Unit (List Event)) (ctx : List Event)
    (sd ed : Int) (ex : Bool) :
    ∀ s ∈ find_available_slots duration preferred_time prefs google outlook ctx sd ed ex,
      s.end_time - s.start_time = duration := by
  intro s hs
  unfold find_available_slots at hs
  rcases hgen : generate_potential_slots sd ed duration prefs ex with e | potential <;>
    rw [hgen] at hs
  · exact absurd hs (by simp)
  · have hs2 : s ∈ score_time_slots
        (filter_conflicting_slots potential (get_existing_events google outlook ctx) prefs)
        preferred_time prefs := List.take_subset _ _ hs
    rcases mem_score_time_slots hs2 with ⟨t, ht, rfl⟩
    have ht2 : t ∈ potential := (List.mem_filter.mp ht).1
    rcases generate_potential_slots_mem sd ed duration prefs ex potential hgen t ht2 with
      ⟨d, _, _, _, ds, hds, hmem⟩
    unfold generate_day_slots at hds
    rcases generate_day_slots_loop_mem duration prefs.buffer_time _ _ ds hds t hmem with
      ⟨e1, _, _⟩
    simp only []
    omega

/-- Witness for C6 at a concrete request that returns one slot. -/
theorem C6_witness :
    (⟨0, 60, 7/10⟩ : TimeSlot) ∈
      find_available_slots 60 none ⟨0, 60, 15⟩ (.ok []) (.ok []) [] 0 0 true ∧
    (⟨0, 60, 7/10⟩ : TimeSlot).end_time - (⟨0, 60, 7/10⟩ : TimeSlot).start_time = 60 := by
  have hm : (⟨0, 60, 7/10⟩ : TimeSlot) ∈
      find_available_slots 60 none ⟨0, 60, 15⟩ (.ok []) (.ok []) [] 0 0 true := by
    simp +decide [find_available_slots, generate_potential_slots, generate_day_slots,
      generate_day_slots_loop, get_existing_events, filter_conflicting_slots, slot_conflicts,
      score_time_slots, sortConfDesc, insertSlot, calculate_slot_score, maxSuggestions]
    try norm_num
  exact ⟨hm, C6_duration_invariant 60 none ⟨0, 60, 15⟩ (.ok []) (.ok []) [] 0 0 true _ hm⟩

/-- Counterexample to claim C7: a weekday date whose working window exactly
equals the duration (`work_end = work_start + duration`, here 0 and 60
minutes with duration 60) contributes one slot, not zero — the generation
loop's condition `current + duration <= work_end` is non-strict. -/
theorem C7_counterexample :
    (⟨0, 60, 15⟩ : UserPreferences).work_end_time
        ≤ (⟨0, 60, 15⟩ : UserPreferences).work_start_time + 60 ∧
    generate_potential_slots 0 0 60 ⟨0, 60, 15⟩ true = .ok [⟨0, 60, 4/5⟩] := by
  constructor
  · norm_num
  · simp +decide [generate_potential_slots, generate_day_slots, generate_day_slots_loop]

/-- Claim C7 as amended: with `exclude_weekends = true` every generated slot
lies on a Monday-through-Friday date of the range with its start and end
inside `[work_start, work_end]` local time of that date (so Saturdays and
Sundays contribute zero slots), and a date where
`work_end < work_start + duration` (strictly — equality yields one slot)
contributes zero slots. -/
theorem C7_amended (sd ed duration : Int) (prefs : UserPreferences) (L : List TimeSlot)
    (hgen : generate_potential_slots sd ed duration prefs true = .ok L) :
    (∀ s ∈ L, ∃ d : Int, sd ≤ d ∧ d ≤ ed ∧ d.emod 7 < 5 ∧
        d * 1440 + prefs.work_start_time ≤ s.start_time ∧
        s.end_time ≤ d * 1440 + prefs.work_end_time) ∧
    (∀ d : Int, prefs.work_end_time < prefs.work_start_time + duration →
        generate_day_slots d duration prefs = .ok []) := by
  constructor
  · intro s hs
    rcases generate_potential_slots_mem sd ed duration prefs true L hgen s hs with
      ⟨d, h1, h2, h3, ds, hds, hmem⟩
    unfold generate_day_slots at hds
    rcases generate_day_slots_loop_mem duration prefs.buffer_time _ _ ds hds s hmem with
      ⟨_, e2, e3⟩
    exact ⟨d, h1, h2, h3 rfl, e2, e3⟩
  · intro d hlt
    unfold generate_day_slots generate_day_slots_loop
    rw [dif_neg (by omega)]

/-- Witness for the amended C7: the containment conclusion at a concrete
generated slot, and the zero-slot conclusion at a window one minute shorter
than the duration. -/
theorem C7_witness :
    (∃ d : Int, 0 ≤ d ∧ d ≤ 0 ∧ d.emod 7 < 5 ∧
        d * 1440 + (⟨0, 60, 15⟩ : UserPreferences).work_start_time
          ≤ (⟨0, 60, 4/5⟩ : TimeSlot).start_time ∧
        (⟨0, 60, 4/5⟩ : TimeSlot).end_time
          ≤ d * 1440 + (⟨0, 60, 15⟩ : UserPreferences).work_end_time) ∧
    generate_day_slots 0 61 ⟨0, 60, 15⟩ = .ok [] := by
  have hgen1 : generate_potential_slots 0 0 60 ⟨0, 60, 15⟩ true = .ok [⟨0, 60, 4/5⟩] := by
    simp +decide [generate_potential_slots, generate_day_slots, generate_day_slots_loop]
  have hgen2 : generate_potential_slots 0 0 61 ⟨0, 60, 15⟩ true = .ok [] := by
    simp +decide [generate_potential_slots, generate_day_slots, generate_day_slots_loop]
  exact ⟨(C7_amended 0 0 60 ⟨0, 60, 15⟩ [⟨0, 60, 4/5⟩] hgen1).1 ⟨0, 60, 4/5⟩ (by simp),
         (C7_amended 0 0 61 ⟨0, 60, 15⟩ [] hgen2).2 0 (by norm_num)⟩

/-- Claim C8 (confirmed): `check_availability` returns true iff no busy
interval with status other than cancelled overlaps `[start, end)` under the
strict test `start < E.end ∧ end > E.start`; no buffer distance appears in
this check. -/
theorem C8_check_availability (start_time end_time : Int) (events : List Event) :
    check_availability start_time end_time events = true ↔
      ∀ E ∈ events, E.status ≠ EventStatus.cancelled →
        ¬(start_time < E.end_time ∧ end_time > E.start_time) := by
  unfold check_availability
  rw [List.all_eq_true]
  constructor
  · intro h E hE hstat
    have h2 := h E hE
    rw [if_neg hstat] at h2
    simp only [Bool.not_eq_true', decide_eq_false_iff_not] at h2
    exact h2
  · intro h E hE
    by_cases hstat : E.status = EventStatus.cancelled
    · rw [if_pos hstat]
    · rw [if_neg hstat]
      simp only [Bool.not_eq_true', decide_eq_false_iff_not]
      exact h E hE hstat

/-- Witness for C8: a cancelled overlapping event and a distant scheduled
event leave the interval available. -/
theorem C8_witness :
    check_availability 0 60 [⟨0, 60, .cancelled⟩, ⟨100, 200, .scheduled⟩] = true :=
  (C8_check_availability 0 60 _).mpr (by decide)

/-- Counterexample to claim C9: for the unknown provider "icloud",
`cancel_event` catches the `ValueError` raised by its dispatch and returns
the ordinary value `false` to the caller, and `suggest_reschedule_options`
likewise catches it and returns `[]` — the `UnsupportedProvider` error is
raised internally (the `attempt` bodies) but not surfaced by these two
operations. -/
theorem C9_counterexample :
    cancel_event "icloud" (.ok true) (.ok true) = false ∧
    cancel_event_attempt "icloud" (.ok true) (.ok true) = .error .unsupportedProvider ∧
    suggest_reschedule_options "icloud" (.ok ⟨0, 60, .scheduled⟩) (.ok ⟨0, 60, .scheduled⟩)
        (fun _ => [⟨120, 180, 1⟩]) = [] ∧
    suggest_reschedule_attempt "icloud" (.ok ⟨0, 60, .scheduled⟩) (.ok ⟨0, 60, .scheduled⟩)
        (fun _ => [⟨120, 180, 1⟩]) = .error .unsupportedProvider := by
  refine ⟨?_, ?_, ?_, ?_⟩ <;> rfl

/-- Claim C9 as amended: an unknown provider name makes all four operations
fail fast without retry, but only `create_event` and `update_event` raise
`UnsupportedProvider` to the caller; `cancel_event` swallows it and returns
`false`, and `suggest_reschedule_options` swallows it and returns the empty
list. -/
theorem C9_amended (provider : String) (hg : provider ≠ "google") (ho : provider ≠ "outlook")
    (gc oc gu ou : Except Unit Event) (gb ob : Except Unit Bool)
    (ge oe : Except Unit Event) (find_slots : Event → List TimeSlot) :
    create_event provider gc oc = .error .unsupportedProvider ∧
    update_event provider gu ou = .error .unsupportedProvider ∧
    cancel_event provider gb ob = false ∧
    suggest_reschedule_options provider ge oe find_slots = [] := by
  refine ⟨?_, ?_, ?_, ?_⟩ <;>
    simp [create_event, update_event, cancel_event, cancel_event_attempt,
      suggest_reschedule_options, suggest_reschedule_attempt, hg, ho]

/-- Witness for the amended C9 at the concrete provider name "icloud". -/
theorem C9_witness :
    create_event "icloud" (.ok ⟨0, 60, .scheduled⟩) (.ok ⟨0, 60, .scheduled⟩)
        = .error .unsupportedProvider ∧
    update_event "icloud" (.ok ⟨0, 60, .scheduled⟩) (.ok ⟨0, 60, .scheduled⟩)
        = .error .unsupportedProvider ∧
    cancel_event "icloud" (.ok false) (.ok false) = false ∧
    suggest_reschedule_options "icloud" (.error ()) (.error ())
        (fun _ => [⟨120, 180, 1⟩]) = [] :=
  C9_amended "icloud" (by decide) (by decide) (.ok ⟨0, 60, .scheduled⟩)
    (.ok ⟨0, 60, .scheduled⟩) (.ok ⟨0, 60, .scheduled⟩) (.ok ⟨0, 60, .scheduled⟩)
    (.ok false) (.ok false) (.error ()) (.error ()) (fun _ => [⟨120, 180, 1⟩])

/-- Counterexample to claim C10: a collaborator failure does *not* result in
an empty list — with the Google fetch failing, the Outlook event that would
have blocked the only candidate slot is dropped by the aggregator and
`find_available_slots` returns that slot. -/
theorem C10_counterexample :
    find_available_slots 60 none ⟨0, 60, 15⟩ (.error ()) (.ok [⟨0, 60, .scheduled⟩]) [] 0 0 true
      = [⟨0, 60, 7/10⟩] ∧
    find_available_slots 60 none ⟨0, 60, 15⟩ (.error ()) (.ok [⟨0, 60, .scheduled⟩]) [] 0 0 true
      ≠ [] := by
  have h : find_available_slots 60 none ⟨0, 60, 15⟩ (.error ())
      (.ok [⟨0, 60, .scheduled⟩]) [] 0 0 true = [⟨0, 60, 7/10⟩] := by
    simp +decide [find_available_slots, generate_potential_slots, generate_day_slots,
      generate_day_slots_loop, get_existing_events, filter_conflicting_slots, slot_conflicts,
      score_time_slots, sortConfDesc, insertSlot, calculate_slot_score, maxSuggestions]
    try norm_num
  refine ⟨h, ?_⟩
  rw [h]
  simp

/-- Claim C10 as amended: for every input — including failing collaborators —
`find_available_slots` returns a list of at most `max_suggestions = 10`
slots and never raises (its return type carries no error); finding no slots
gives the empty list, and an error escaping the slot pipeline (such as the
slot validator) also yields the empty list.  Collaborator failures, however,
are absorbed by the aggregator before the pipeline and do not force an empty
result. -/
theorem C10_amended (duration : Int) (preferred_time : Option Int) (prefs : UserPreferences)
    (google outlook : Except Unit (List Event)) (ctx : List Event) (sd ed : Int) (ex : Bool) :
    (find_available_slots duration preferred_time prefs google outlook ctx sd ed ex).length
        ≤ maxSuggestions ∧
    (∀ e, generate_potential_slots sd ed duration prefs ex = .error e →
      find_available_slots duration preferred_time prefs google outlook ctx sd ed ex = []) := by
  constructor
  · unfold find_available_slots
    rcases hgen : generate_potential_slots sd ed duration prefs ex with e | potential
    · simp [maxSuggestions]
    · simpa using List.length_take_le _ _
  · intro e he
    unfold find_available_slots
    rw [he]

/-- Witness for the amended C10 at a concrete input whose pipeline errors. -/
theorem C10_witness :
    (find_available_slots 0 none ⟨0, 60, 15⟩ (.ok []) (.ok []) [] 0 0 true).length
        ≤ maxSuggestions ∧
    find_available_slots 0 none ⟨0, 60, 15⟩ (.ok []) (.ok []) [] 0 0 true = [] := by
  have hgen : generate_potential_slots 0 0 0 ⟨0, 60, 15⟩ true = .error .invalidTimeSlot := by
    simp +decide [generate_potential_slots, generate_day_slots, generate_day_slots_loop]
  exact ⟨(C10_amended 0 none ⟨0, 60, 15⟩ (.ok []) (.ok []) [] 0 0 true).1,
         (C10_amended 0 none ⟨0, 60, 15⟩ (.ok []) (.ok []) [] 0 0 true).2 .invalidTimeSlot hgen⟩
